import Mathlib

/-!
Verification of the worktree-agent orchestrator against its specification.
The definitions below are a shallow embedding of the Rust sources:
agent/registry data model (src/orchestrator/agent.rs, state.rs), the
orchestrator operations (src/orchestrator/mod.rs), the merge engine
(src/git/merge.rs), the provider command builder (src/provider/mod.rs)
and the CLI truncation helper (src/cli/mod.rs). External effects
(filesystem, tmux, git subprocesses) are abstracted into explicit
oracle records passed to each operation.
-/

namespace WorktreeAgent

/-- Agent lifecycle status, src/orchestrator/agent.rs (enum AgentStatus). -/
inductive AgentStatus where
  | running
  | completed
  | failed
  | merged
deriving DecidableEq

/-- Provider enumeration, src/provider/mod.rs (enum Provider). -/
inductive Provider where
  | claude
  | codex
  | gemini
  | deepagents
  | amp
  | opencode
deriving DecidableEq

/-- UTC timestamps are abstracted as natural numbers. -/
abbrev Timestamp := Nat

/-- One registry row, src/orchestrator/agent.rs (struct Agent).
Paths are modelled as strings (their display form); the id newtype
AgentId is inlined as the underlying string. -/
structure Agent where
  id : String
  task : String
  branch : String
  base_branch : String
  worktree_path : String
  tmux_session : String
  tmux_window : String
  status : AgentStatus
  provider : Provider
  spawned_at : Timestamp
  completed_at : Option Timestamp
deriving DecidableEq

/-- Agent::new, src/orchestrator/agent.rs lines 52-77: the agent is born
Running with completed_at unset; spawned_at is the current time. -/
def Agent.new (id task branch base_branch worktree_path tmux_session
    tmux_window : String) (provider : Provider) (now : Timestamp) : Agent :=
  { id := id
    task := task
    branch := branch
    base_branch := base_branch
    worktree_path := worktree_path
    tmux_session := tmux_session
    tmux_window := tmux_window
    status := AgentStatus.running
    provider := provider
    spawned_at := now
    completed_at := none }

/-- The registry, src/orchestrator/state.rs (struct State). The state_dir
field is not serialized and plays no role in the registry contents, so it
is not modelled. -/
structure State where
  next_id : Nat
  agents : List Agent
deriving DecidableEq

/-- State::get_agent: linear scan by id (find of the first match). -/
def State.get_agent (s : State) (id : String) : Option Agent :=
  s.agents.find? (fun a => a.id == id)

/-- State::remove_agent without the save step: retain-not-equal. -/
def State.remove_agent (s : State) (id : String) : State :=
  { s with agents := s.agents.filter (fun a => a.id != id) }

/-- Mutation through State::get_agent_mut: iter_mut().find updates the
first agent whose id matches. -/
def updateFirst (p : Agent → Bool) (f : Agent → Agent) : List Agent → List Agent
  | [] => []
  | a :: rest => if p a then f a :: rest else a :: updateFirst p f rest

/-- Apply a mutation to the first agent with the given id (the effect of
get_agent_mut followed by field assignments). -/
def State.set_agent (s : State) (id : String) (f : Agent → Agent) : State :=
  { s with agents := updateFirst (fun a => a.id == id) f s.agents }

/-- Decimal digit character, as produced by u64 to_string. -/
def digitChar (d : Nat) : Char := Char.ofNat (48 + d)

/-- Fuel-driven decimal rendering; fuel bounds recursion depth so the
definition is structurally recursive and kernel-computable. -/
def natDigitsAux : Nat → Nat → List Char
  | 0, _ => []
  | fuel + 1, n =>
    if n < 10 then [digitChar n]
    else natDigitsAux fuel (n / 10) ++ [digitChar (n % 10)]

/-- Decimal digits of a natural number, most significant first. -/
def natDigits (n : Nat) : List Char := natDigitsAux (n + 1) n

/-- Decimal rendering of a natural number, the model of Rust's
u64 to_string used for agent ids in Orchestrator::launch. -/
def natToString (n : Nat) : String := String.mk (natDigits n)

/-- Numeric value of a digit character (inverse of digitChar). -/
def charVal (c : Char) : Nat := c.toNat - 48

/-- Value of a digit list read as a decimal numeral. -/
def digitsVal (l : List Char) : Nat :=
  l.foldl (fun acc c => acc * 10 + charVal c) 0

/-- Error kinds, src/error.rs (enum Error). Payload-free variants keep
only what the modelled operations inspect; the wrapped library errors
(git2, io, serde_json) are collapsed to their kind. -/
inductive Error where
  | agentNotFound (id : String)
  | agentStillRunning (id : String)
  | agentAlreadyCompleted (id : String)
  | git
  | tmux (msg : String)
  | externalProcessFailed (msg : String)
  | tmuxSessionNotFound (name : String)
  | tmuxWindowNotFound (name : String)
  | io
  | json
  | mergeConflict (files : List String)
  | worktreeAlreadyExists (path : String)
  | worktreeNotFound (path : String)
  | branchAlreadyExists (name : String)
  | notAGitRepository
  | stateCorrupted
  | commandFailed (command : String) (stderr : String)
  | invalidUtf8Path (path : String)
deriving DecidableEq

/-- JSON values, the model of serde_json::Value. Objects are association
lists with unique keys (the post-parse map). -/
inductive Json where
  | null
  | bool (b : Bool)
  | num (n : Nat)
  | str (s : String)
  | arr (elems : List Json)
  | obj (fields : List (String × Json))

/-- Value::get(key).and_then(as_str) style field access: on a non-object
the lookup yields none. -/
def jsonLookup (j : Json) (key : String) : Option Json :=
  match j with
  | .obj fields => fields.lookup key
  | _ => none

/-- Value::as_str. -/
def Json.asStr : Json → Option String
  | .str s => some s
  | _ => none

/-- status_data.get("status").and_then(as_str), src/orchestrator/mod.rs
line 280. -/
def statusFieldStr (j : Json) : Option String :=
  (jsonLookup j "status").bind Json.asStr

/-- Serialization of AgentStatus: serde(rename_all = "lowercase"). -/
def encodeStatus : AgentStatus → Json
  | .running => .str "running"
  | .completed => .str "completed"
  | .failed => .str "failed"
  | .merged => .str "merged"

def decodeStatus : Json → Option AgentStatus
  | .str s =>
    if s = "running" then some .running
    else if s = "completed" then some .completed
    else if s = "failed" then some .failed
    else if s = "merged" then some .merged
    else none
  | _ => none

/-- Serialization of Provider: serde(rename_all = "lowercase"). -/
def encodeProvider : Provider → Json
  | .claude => .str "claude"
  | .codex => .str "codex"
  | .gemini => .str "gemini"
  | .deepagents => .str "deepagents"
  | .amp => .str "amp"
  | .opencode => .str "opencode"

def decodeProvider : Json → Option Provider
  | .str s =>
    if s = "claude" then some .claude
    else if s = "codex" then some .codex
    else if s = "gemini" then some .gemini
    else if s = "deepagents" then some .deepagents
    else if s = "amp" then some .amp
    else if s = "opencode" then some .opencode
    else none
  | _ => none

/-- Timestamps serialize to a single injective JSON value (RFC-3339 text
in the implementation, abstracted here as the numeric payload). -/
def encodeTime (t : Timestamp) : Json := .num t

def decodeTime : Json → Option Timestamp
  | .num n => some n
  | _ => none

/-- Option serializes as null / plain value (serde default behavior for
Option fields such as completed_at). -/
def encodeOptTime : Option Timestamp → Json
  | none => .null
  | some t => .num t

def decodeOptTime : Json → Option (Option Timestamp)
  | .null => some none
  | .num n => some (some n)
  | _ => none

/-- Derived serde serialization of Agent: one object entry per field, in
declaration order (src/orchestrator/agent.rs lines 36-50). -/
def encodeAgent (a : Agent) : Json :=
  .obj
    [ ("id", .str a.id)
    , ("task", .str a.task)
    , ("branch", .str a.branch)
    , ("base_branch", .str a.base_branch)
    , ("worktree_path", .str a.worktree_path)
    , ("tmux_session", .str a.tmux_session)
    , ("tmux_window", .str a.tmux_window)
    , ("status", encodeStatus a.status)
    , ("provider", encodeProvider a.provider)
    , ("spawned_at", encodeTime a.spawned_at)
    , ("completed_at", encodeOptTime a.completed_at) ]

def decodeStrField (fields : List (String × Json)) (key : String) : Option String :=
  (fields.lookup key).bind Json.asStr

/-- Derived serde deserialization of Agent. The provider field carries
serde(default): absent means Provider::default() = Claude, while a
present but invalid value is an error. -/
def decodeAgent : Json → Option Agent
  | .obj fields =>
    match decodeStrField fields "id", decodeStrField fields "task",
        decodeStrField fields "branch", decodeStrField fields "base_branch",
        decodeStrField fields "worktree_path",
        decodeStrField fields "tmux_session",
        decodeStrField fields "tmux_window",
        (fields.lookup "status").bind decodeStatus,
        (fields.lookup "spawned_at").bind decodeTime,
        (fields.lookup "completed_at").bind decodeOptTime with
    | some id, some task, some branch, some base_branch, some worktree_path,
        some tmux_session, some tmux_window, some status, some spawned_at,
        some completed_at =>
      match fields.lookup "provider" with
      | some pj =>
        match decodeProvider pj with
        | some provider =>
          some ⟨id, task, branch, base_branch, worktree_path, tmux_session,
            tmux_window, status, provider, spawned_at, completed_at⟩
        | none => none
      | none =>
        some ⟨id, task, branch, base_branch, worktree_path, tmux_session,
          tmux_window, status, Provider.claude, spawned_at, completed_at⟩
    | _, _, _, _, _, _, _, _, _, _ => none
  | _ => none

/-- Elementwise sequence deserialization. -/
def decodeAgents : List Json → Option (List Agent)
  | [] => some []
  | j :: rest =>
    match decodeAgent j, decodeAgents rest with
    | some a, some l => some (a :: l)
    | _, _ => none

/-- Derived serde serialization of State (state_dir is serde(skip)). -/
def encodeState (s : State) : Json :=
  .obj [("next_id", .num s.next_id), ("agents", .arr (s.agents.map encodeAgent))]

def decodeState (j : Json) : Option State :=
  match j with
  | .obj fields =>
    match (fields.lookup "next_id").bind decodeTime with
    | some n =>
      match fields.lookup "agents" with
      | some (.arr js) =>
        match decodeAgents js with
        | some agents => some ⟨n, agents⟩
        | none => none
      | _ => none
    | none => none
  | _ => none

/-- The filesystem as a map from paths to stored JSON documents. -/
def FS := String → Option Json

def stateFilePath (dir : String) : String := dir ++ "/state.json"

/-- State::save, src/orchestrator/state.rs lines 35-40: write the JSON
document at dir/state.json (modelled atomically). -/
def saveState (s : State) (dir : String) (fs : FS) : FS :=
  fun p => if p = stateFilePath dir then some (encodeState s) else fs p

/-- State::load_or_create, src/orchestrator/state.rs lines 17-33: a
missing file yields the fresh registry with next_id 1; a file that fails
to deserialize is surfaced as StateCorrupted. -/
def load_or_create (dir : String) (fs : FS) : Except Error State :=
  match fs (stateFilePath dir) with
  | some j =>
    match decodeState j with
    | some s => .ok s
    | none => .error .stateCorrupted
  | none => .ok ⟨1, []⟩

/-- MergeStrategy, src/orchestrator/mod.rs lines 18-23. -/
inductive MergeStrategy where
  | merge
  | rebase
  | squash
deriving DecidableEq

/-- MergeResult, src/orchestrator/mod.rs lines 44-48 (conflict paths as
strings). -/
structure MergeResult where
  success : Bool
  message : String
  conflicts : List String
deriving DecidableEq

/-- PruneFilter, src/orchestrator/mod.rs lines 26-34. -/
inductive PruneFilter where
  | all
  | status (s : AgentStatus)
  | inactive
deriving DecidableEq

/-- Captured stdout/stderr and exit status of one git subprocess. -/
structure CmdOut where
  success : Bool
  stdout : String
  stderr : String
deriving DecidableEq

/-- Substring test on character lists (Rust str::contains with a string
pattern). -/
def listContains : List Char → List Char → Bool
  | [], pat => pat.isEmpty
  | hay@(_ :: t), pat => pat.isPrefixOf hay || listContains t pat

def strContains (s pat : String) : Bool := listContains s.data pat.data

/-- has_conflict, src/git/merge.rs lines 30-32: substring scan of stderr
for the two case variants of the conflict sentinel. -/
def has_conflict (stderr : String) : Bool :=
  strContains stderr "CONFLICT" || strContains stderr "conflict"

/-- Rust str::lines on \n-separated text: a trailing newline does not
produce a final empty line. -/
def rustLines (s : String) : List String :=
  let parts := s.splitOn "\n"
  if parts.getLast? = some "" then parts.dropLast else parts

/-- Outcomes of the git subprocesses that src/git/merge.rs may spawn, in
program order. none models a spawn failure (io error); the results of
the best-effort abort/reset commands are discarded by the code and are
therefore not part of the oracle. -/
structure GitWorld where
  checkout_base : Option CmdOut
  merge_cmd : Option CmdOut
  diff_unmerged : Option CmdOut
  checkout_branch : Option CmdOut
  rebase_cmd : Option CmdOut
  checkout_base_after : Option CmdOut
  ff_merge : Option CmdOut
  squash_cmd : Option CmdOut
  commit_cmd : Option CmdOut

/-- run_git, src/git/merge.rs lines 10-16: a spawn failure maps to the
Io error kind. -/
def run_git (r : Option CmdOut) : Except Error CmdOut :=
  match r with
  | some out => .ok out
  | none => .error .io

/-- run_git_checked, src/git/merge.rs lines 18-28. -/
def run_git_checked (r : Option CmdOut) (command : String) : Except Error CmdOut :=
  match run_git r with
  | .error e => .error e
  | .ok out =>
    if out.success then .ok out
    else .error (.commandFailed command out.stderr)

/-- get_conflict_files, src/git/merge.rs lines 139-143. -/
def get_conflict_files (w : GitWorld) : Except Error (List String) :=
  match run_git w.diff_unmerged with
  | .error e => .error e
  | .ok out => .ok ((rustLines out.stdout).map String.trim)

/-- do_merge, src/git/merge.rs lines 55-78. The merge abort is
best-effort and its outcome discarded. -/
def do_merge (w : GitWorld) (branch : String) : Except Error MergeResult :=
  match run_git w.merge_cmd with
  | .error e => .error e
  | .ok out =>
    if out.success then
      .ok ⟨true, "Successfully merged " ++ branch, []⟩
    else if has_conflict out.stderr then
      match get_conflict_files w with
      | .error e => .error e
      | .ok conflicts => .error (.mergeConflict conflicts)
    else .error (.commandFailed "git merge" out.stderr)

/-- do_rebase, src/git/merge.rs lines 80-111. -/
def do_rebase (w : GitWorld) (branch base_branch : String) : Except Error MergeResult :=
  match run_git_checked w.checkout_branch "git checkout" with
  | .error e => .error e
  | .ok _ =>
    match run_git w.rebase_cmd with
    | .error e => .error e
    | .ok out =>
      if out.success then
        match run_git_checked w.checkout_base_after "git checkout" with
        | .error e => .error e
        | .ok _ =>
          match run_git_checked w.ff_merge "git merge --ff-only" with
          | .error e => .error e
          | .ok _ => .ok ⟨true, "Successfully rebased and merged " ++ branch, []⟩
      else if has_conflict out.stderr then
        match get_conflict_files w with
        | .error e => .error e
        | .ok conflicts => .error (.mergeConflict conflicts)
      else .error (.commandFailed "git rebase" out.stderr)

/-- do_squash_merge, src/git/merge.rs lines 113-137. -/
def do_squash_merge (w : GitWorld) (branch : String) : Except Error MergeResult :=
  match run_git w.squash_cmd with
  | .error e => .error e
  | .ok out =>
    if out.success then
      match run_git_checked w.commit_cmd "git commit" with
      | .error e => .error e
      | .ok _ => .ok ⟨true, "Successfully squash-merged " ++ branch, []⟩
    else if has_conflict out.stderr then
      match get_conflict_files w with
      | .error e => .error e
      | .ok conflicts => .error (.mergeConflict conflicts)
    else .error (.commandFailed "git merge --squash" out.stderr)

/-- merge_branch, src/git/merge.rs lines 40-53: check out the base
branch (through the oracle), then dispatch on the strategy. -/
def merge_branch (w : GitWorld) (branch base_branch : String)
    (strategy : MergeStrategy) : Except Error MergeResult :=
  match run_git_checked w.checkout_base "git checkout" with
  | .error e => .error e
  | .ok _ =>
    match strategy with
    | .merge => do_merge w branch
    | .rebase => do_rebase w branch base_branch
    | .squash => do_squash_merge w branch

/-- truncate_task, src/cli/mod.rs lines 12-19, over character lists.
Nat subtraction is saturating exactly like usize::saturating_sub. -/
def truncate_task (task : List Char) (max_len : Nat) : List Char :=
  if max_len < task.length then
    task.take (max_len - 3) ++ ['.', '.', '.']
  else task

/-- Join of extra_args: empty yields the empty string, otherwise a space
followed by the space-joined arguments (src/provider/mod.rs lines 87-91). -/
def joinExtraArgs (extra_args : List String) : String :=
  if extra_args.isEmpty then ""
  else " " ++ String.intercalate " " extra_args

/-- Path::parent().display() with unwrap_or_default on string paths:
drop the final component; the parent of a single-component relative path
or of the root displays as the empty string. -/
def pathParent (p : String) : String :=
  let comps := (p.splitOn "/").filter (fun c => c ≠ "")
  if p.startsWith "/" then
    if comps.length ≤ 1 then
      if comps.isEmpty then "" else "/"
    else "/" ++ String.intercalate "/" comps.dropLast
  else
    if comps.length ≤ 1 then ""
    else String.intercalate "/" comps.dropLast

/-- The default allowed-tools list for Claude, src/provider/mod.rs
lines 106-120. -/
def defaultAllowedTools : List String :=
  [ "Bash(cargo check:*)"
  , "Bash(cargo build:*)"
  , "Bash(cargo test:*)"
  , "Bash(cargo fmt:*)"
  , "Bash(cargo clippy:*)"
  , "Bash(git diff:*)"
  , "Bash(git status:*)"
  , "Bash(git log:*)"
  , "Bash(git branch:*)"
  , "Bash(git add:*)"
  , "Bash(git commit:*)"
  , "Bash(ls:*)"
  , "Bash(pwd)" ]

/-- build_claude_command, src/provider/mod.rs lines 80-140. -/
def build_claude_command (worktree_path prompt_file status_file : String)
    (extra_args : List String) : String :=
  let extra_args_str := joinExtraArgs extra_args
  if extra_args.contains "--dangerously-allow-all" then
    "cd " ++ worktree_path ++ " && cat " ++ prompt_file ++
      " | claude --dangerously-allow-all" ++ extra_args_str
  else
    let status_dir := pathParent status_file
    let status_file_pattern := "Write(" ++ status_dir ++ "/*)"
    let allowed_tools_arg := "--allowedTools '" ++
      String.intercalate "," defaultAllowedTools ++ "," ++ status_file_pattern ++ "'"
    "cd " ++ worktree_path ++ " && cat " ++ prompt_file ++
      " | claude --permission-mode acceptEdits " ++ allowed_tools_arg ++ extra_args_str

/-- Orchestrator state: the in-memory registry (sole writer), the last
successfully persisted registry snapshot, and the tmux session name.
Worktree/tmux/git managers are stateless helpers abstracted into the
per-operation oracles. -/
structure Orch where
  state : State
  disk : State
  session : String
deriving DecidableEq

/-- A fresh orchestrator over an empty registry (Orchestrator::new on a
repository with no prior state file: load_or_create yields next_id 1). -/
def Orch.init (session : String) : Orch :=
  { state := ⟨1, []⟩, disk := ⟨1, []⟩, session := session }

/-- State::save at the orchestrator level: on success the persisted
snapshot becomes the in-memory registry; on failure (Io) nothing is
persisted. -/
def Orch.save (o : Orch) (saveOk : Bool) : Except Error Unit × Orch :=
  if saveOk then (.ok (), { o with disk := o.state })
  else (.error .io, o)

/-- Observed reality consulted by Orchestrator::check_status: whether
the status file exists and what it holds (read/parse errors included),
whether the tmux window is alive, the clock, and whether the save
succeeds. -/
structure StatusOracle where
  readFile : Option (Except Error Json)
  window_exists : Bool
  now : Timestamp
  saveOk : Bool

/-- The terminal transition inside check_status: stamp the new status
and completed_at on the first matching agent, then save. On a save
failure the in-memory registry keeps the mutation and the Io error is
surfaced (the trailing question-mark operator). -/
def Orch.applyTerminal (o : Orch) (id : String) (ns : AgentStatus)
    (w : StatusOracle) : Except Error AgentStatus × Orch :=
  let st := o.state.set_agent id
    (fun a => { a with status := ns, completed_at := some w.now })
  let o1 := { o with state := st }
  if w.saveOk then (.ok ns, { o1 with disk := st })
  else (.error .io, o1)

/-- Orchestrator::check_status, src/orchestrator/mod.rs lines 261-311:
short-circuit on a non-Running agent; else consult the status file; a
terminal value stamps the agent (killing the window is best-effort and
outside the registry); any other parsed value returns the recorded
Running status untouched; with no file, a dead window means Failed. -/
def Orch.check_status (o : Orch) (id : String) (w : StatusOracle) :
    Except Error AgentStatus × Orch :=
  match o.state.get_agent id with
  | none => (.error (.agentNotFound id), o)
  | some agent =>
    if agent.status ≠ AgentStatus.running then (.ok agent.status, o)
    else
      match w.readFile with
      | some (.error e) => (.error e, o)
      | some (.ok j) =>
        match statusFieldStr j with
        | some s =>
          if s = "completed" then o.applyTerminal id .completed w
          else if s = "failed" then o.applyTerminal id .failed w
          else (.ok agent.status, o)
        | none => (.ok agent.status, o)
      | none =>
        if w.window_exists then (.ok agent.status, o)
        else o.applyTerminal id .failed w

/-- LaunchRequest, src/orchestrator/mod.rs lines 36-42. -/
structure LaunchRequest where
  task : String
  branch : Option String
  base : Option String
  provider : Provider
  provider_args : List String

/-- Outcomes of the fallible steps of Orchestrator::launch, in program
order. Branch resolution results carry the produced worktree path. -/
structure LaunchOracle where
  branch_exists : Except Error Bool
  checkout_existing : Except Error String
  current_branch : Except Error String
  create : Except Error String
  ensure_session : Except Error Unit
  create_window : Except Error Unit
  write_prompt : Except Error Unit
  send_keys : Except Error Unit
  saveOk : Bool
  now : Timestamp

/-- The new-branch arm of launch branch resolution (the match fallthrough
in src/orchestrator/mod.rs lines 140-154): branch is user-supplied or
wta/<id>; base is user-supplied or the current HEAD branch. -/
def resolveNewBranch (req : LaunchRequest) (w : LaunchOracle) (id : String) :
    Except Error (String × String × String) :=
  let branch := req.branch.getD ("wta/" ++ id)
  match req.base with
  | some b =>
    match w.create with
    | .error e => .error e
    | .ok path => .ok (branch, b, path)
  | none =>
    match w.current_branch with
    | .error e => .error e
    | .ok b =>
      match w.create with
      | .error e => .error e
      | .ok path => .ok (branch, b, path)

/-- Branch resolution, src/orchestrator/mod.rs lines 127-155: a
user-supplied branch that already exists is checked out directly with
base_branch set to itself; the question-mark in the match guard makes a
branch_exists failure abort the launch. -/
def resolveBranch (req : LaunchRequest) (w : LaunchOracle) (id : String) :
    Except Error (String × String × String) :=
  match req.branch with
  | some specified =>
    match w.branch_exists with
    | .error e => .error e
    | .ok true =>
      match w.checkout_existing with
      | .error e => .error e
      | .ok path => .ok (specified, specified, path)
    | .ok false => resolveNewBranch req w id
  | none => resolveNewBranch req w id

/-- Orchestrator::launch, src/orchestrator/mod.rs lines 122-218. The id
is allocated first (State::next_id post-increments unconditionally);
the .claude copy is best-effort and ignored; the registry entry is
appended and saved only as the final step (add_agent). A failing final
save leaves the entry in memory but not on disk and surfaces Io. -/
def Orch.launch (o : Orch) (req : LaunchRequest) (w : LaunchOracle) :
    Except Error String × Orch :=
  let n := o.state.next_id
  let id := natToString n
  let st1 : State := { o.state with next_id := n + 1 }
  let o1 := { o with state := st1 }
  match resolveBranch req w id with
  | .error e => (.error e, o1)
  | .ok (branch, base_branch, worktree_path) =>
    match w.ensure_session with
    | .error e => (.error e, o1)
    | .ok _ =>
      match w.create_window with
      | .error e => (.error e, o1)
      | .ok _ =>
        match w.write_prompt with
        | .error e => (.error e, o1)
        | .ok _ =>
          match w.send_keys with
          | .error e => (.error e, o1)
          | .ok _ =>
            let agent := Agent.new id req.task branch base_branch worktree_path
              o.session id req.provider w.now
            let st2 := { st1 with agents := st1.agents ++ [agent] }
            if w.saveOk then (.ok id, { o1 with state := st2, disk := st2 })
            else (.error .io, { o1 with state := st2 })

/-- Outcomes of the fallible steps of Orchestrator::merge beyond the
merge engine: Repository::open (a git2 error propagates) and the final
save. Worktree removal, branch deletion and prompt/status file removal
are best-effort with discarded results. -/
structure MergeOracle where
  git : GitWorld
  repoOpenOk : Bool
  saveOk : Bool

/-- Orchestrator::merge, src/orchestrator/mod.rs lines 313-361. -/
def Orch.merge (o : Orch) (id : String) (strategy : MergeStrategy)
    (force : Bool) (w : MergeOracle) : Except Error MergeResult × Orch :=
  match o.state.get_agent id with
  | none => (.error (.agentNotFound id), o)
  | some agent =>
    if agent.status = AgentStatus.running ∧ force = false then
      (.error (.agentStillRunning id), o)
    else
      match merge_branch w.git agent.branch agent.base_branch strategy with
      | .error e => (.error e, o)
      | .ok result =>
        if result.success then
          if w.repoOpenOk then
            let st := o.state.set_agent id
              (fun a => { a with status := AgentStatus.merged })
            let o1 := { o with state := st }
            if w.saveOk then (.ok result, { o1 with disk := st })
            else (.error .io, o1)
          else (.error .git, o)
        else (.ok result, o)

/-- Outcomes of the fallible steps of Orchestrator::remove: the embedded
check_status oracle, the window_exists probe, Repository::open and the
final save of remove_agent. -/
structure RemoveOracle where
  check : StatusOracle
  window_exists : Bool
  repoOpenOk : Bool
  saveOk : Bool

/-- Orchestrator::remove, src/orchestrator/mod.rs lines 363-410: first
reconcile, then treat the agent as truly running only if its recorded
status is Running and the window exists; cleanup is best-effort and the
registry entry is erased last. -/
def Orch.remove (o : Orch) (id : String) (force : Bool) (w : RemoveOracle) :
    Except Error Unit × Orch :=
  match o.check_status id w.check with
  | (.error e, o1) => (.error e, o1)
  | (.ok _, o1) =>
    match o1.state.get_agent id with
    | none => (.error (.agentNotFound id), o1)
    | some agent =>
      if (agent.status = AgentStatus.running ∧ w.window_exists = true)
          ∧ force = false then
        (.error (.agentStillRunning id), o1)
      else
        if w.repoOpenOk then
          let st := o1.state.remove_agent id
          let o2 := { o1 with state := st }
          if w.saveOk then (.ok (), { o2 with disk := st })
          else (.error .io, o2)
        else (.error .git, o1)

/-- The prune filter match, src/orchestrator/mod.rs lines 420-429. -/
def matchesFilter (filter : PruneFilter) (a : Agent) : Bool :=
  match filter with
  | .all => true
  | .status s => a.status == s
  | .inactive =>
    a.status == AgentStatus.merged || a.status == AgentStatus.completed ||
      a.status == AgentStatus.failed

/-- The prune loop: cleanup is best-effort, then remove_agent (which
saves) for each collected agent in turn; a save failure propagates
mid-loop with the removals so far retained in memory. saveOk is indexed
by loop iteration. -/
def pruneGo (toPrune : List Agent) (i : Nat) (o : Orch) (acc : List Agent)
    (saveOk : Nat → Bool) : Except Error (List Agent) × Orch :=
  match toPrune with
  | [] => (.ok acc.reverse, o)
  | a :: rest =>
    let st := o.state.remove_agent a.id
    let o1 := { o with state := st }
    if saveOk i then pruneGo rest (i + 1) { o1 with disk := st } (a :: acc) saveOk
    else (.error .io, o1)

/-- Orchestrator::prune, src/orchestrator/mod.rs lines 414-446. -/
def Orch.prune (o : Orch) (filter : PruneFilter) (saveOk : Nat → Bool) :
    Except Error (List Agent) × Orch :=
  let agents_to_prune := o.state.agents.filter (matchesFilter filter)
  pruneGo agents_to_prune 0 o [] saveOk

/-- A sequence of launch calls; the allocated id of each call (decimal
rendering of the registry counter at entry, allocated whether or not the
launch later fails) is collected alongside the final state. -/
def runLaunches (o : Orch) : List (LaunchRequest × LaunchOracle) → Orch × List String
  | [] => (o, [])
  | (req, w) :: rest =>
    let id := natToString o.state.next_id
    let o1 := (o.launch req w).2
    let (of, ids) := runLaunches o1 rest
    (of, id :: ids)

/-- Registry states reachable from a fresh orchestrator by any sequence
of orchestrator operations, with arbitrary observed realities. -/
inductive Reachable : Orch → Prop where
  | init (session : String) : Reachable (Orch.init session)
  | launch (o : Orch) (req : LaunchRequest) (w : LaunchOracle) :
      Reachable o → Reachable (o.launch req w).2
  | check_status (o : Orch) (id : String) (w : StatusOracle) :
      Reachable o → Reachable (o.check_status id w).2
  | merge (o : Orch) (id : String) (strategy : MergeStrategy) (force : Bool)
      (w : MergeOracle) : Reachable o → Reachable (o.merge id strategy force w).2
  | remove (o : Orch) (id : String) (force : Bool) (w : RemoveOracle) :
      Reachable o → Reachable (o.remove id force w).2
  | prune (o : Orch) (filter : PruneFilter) (saveOk : Nat → Bool) :
      Reachable o → Reachable (o.prune filter saveOk).2

/-- Reachability restricted to sequences in which merge is never forced
on an agent recorded as Running. -/
inductive ReachableSafe : Orch → Prop where
  | init (session : String) : ReachableSafe (Orch.init session)
  | launch (o : Orch) (req : LaunchRequest) (w : LaunchOracle) :
      ReachableSafe o → ReachableSafe (o.launch req w).2
  | check_status (o : Orch) (id : String) (w : StatusOracle) :
      ReachableSafe o → ReachableSafe (o.check_status id w).2
  | merge (o : Orch) (id : String) (strategy : MergeStrategy) (force : Bool)
      (w : MergeOracle) : ReachableSafe o →
      (∀ agent, o.state.get_agent id = some agent →
        agent.status ≠ AgentStatus.running ∨ force = false) →
      ReachableSafe (o.merge id strategy force w).2
  | remove (o : Orch) (id : String) (force : Bool) (w : RemoveOracle) :
      ReachableSafe o → ReachableSafe (o.remove id force w).2
  | prune (o : Orch) (filter : PruneFilter) (saveOk : Nat → Bool) :
      ReachableSafe o → ReachableSafe (o.prune filter saveOk).2

/-- The completed_at half of registry invariant 3: completed_at is unset
exactly on Running agents (so every Completed/Failed/Merged agent has it
set). -/
def completedAtInv (s : State) : Prop :=
  ∀ a ∈ s.agents, (a.completed_at = none ↔ a.status = AgentStatus.running)

/-- Registry invariant 1: every id is the decimal rendering of an
integer below the counter. -/
def idInv (s : State) : Prop :=
  ∀ a ∈ s.agents, ∃ k, a.id = natToString k ∧ k < s.next_id

/-! Concrete fixtures used to instantiate the theorems below. -/

/-- A Running agent as produced by a first launch. -/
def agentA : Agent :=
  { id := "1", task := "t", branch := "wta/1", base_branch := "main"
    worktree_path := "/wt/1", tmux_session := "s", tmux_window := "1"
    status := AgentStatus.running, provider := Provider.claude
    spawned_at := 0, completed_at := none }

/-- The same agent reconciled to Completed. -/
def agentC : Agent :=
  { agentA with status := AgentStatus.completed, completed_at := some 1 }

/-- An orchestrator holding the single Running agent. -/
def orchA : Orch :=
  { state := ⟨2, [agentA]⟩, disk := ⟨2, [agentA]⟩, session := "s" }

/-- An orchestrator holding the single Completed agent. -/
def orchC : Orch :=
  { state := ⟨2, [agentC]⟩, disk := ⟨2, [agentC]⟩, session := "s" }

/-- Status file present with an unrecognized status value, window gone. -/
def wUnknown : StatusOracle :=
  { readFile := some (.ok (.obj [("status", .str "unknown")]))
    window_exists := false, now := 5, saveOk := true }

/-- Status file present reporting completion. -/
def wCompleted : StatusOracle :=
  { readFile := some (.ok (.obj [("status", .str "completed")]))
    window_exists := true, now := 7, saveOk := true }

/-- No status file, window gone. -/
def wGone : StatusOracle :=
  { readFile := none, window_exists := false, now := 3, saveOk := true }

/-- A launch request with no branch override. -/
def reqA : LaunchRequest :=
  { task := "t", branch := none, base := some "main"
    provider := Provider.claude, provider_args := [] }

/-- A launch world in which every step succeeds. -/
def wLaunchA : LaunchOracle :=
  { branch_exists := .ok false, checkout_existing := .ok ""
    current_branch := .ok "main", create := .ok "/wt/1"
    ensure_session := .ok (), create_window := .ok ()
    write_prompt := .ok (), send_keys := .ok ()
    saveOk := true, now := 0 }

/-- A git world in which every subprocess succeeds with empty output. -/
def gitAllOk : GitWorld :=
  { checkout_base := some ⟨true, "", ""⟩, merge_cmd := some ⟨true, "", ""⟩
    diff_unmerged := some ⟨true, "", ""⟩, checkout_branch := some ⟨true, "", ""⟩
    rebase_cmd := some ⟨true, "", ""⟩, checkout_base_after := some ⟨true, "", ""⟩
    ff_merge := some ⟨true, "", ""⟩, squash_cmd := some ⟨true, "", ""⟩
    commit_cmd := some ⟨true, "", ""⟩ }

/-- A merge world in which everything succeeds. -/
def wMergeA : MergeOracle :=
  { git := gitAllOk, repoOpenOk := true, saveOk := true }

/-- Launch one agent from a fresh registry, then force-merge it while it
is still Running: the sequence the completed_at invariant claim must
survive. -/
def orchForcedMerge : Orch :=
  (((Orch.init "s").launch reqA wLaunchA).2.merge "1" MergeStrategy.merge true wMergeA).2

/-- Two successful launch calls. -/
def callsW : List (LaunchRequest × LaunchOracle) :=
  [(reqA, wLaunchA), (reqA, wLaunchA)]

/-- A launch world in which worktree creation fails. -/
def wLaunchFail : LaunchOracle :=
  { wLaunchA with create := .error Error.io }

/-! Helper lemmas. -/

theorem charVal_digitChar (d : Nat) (h : d < 10) : charVal (digitChar d) = d := by
  interval_cases d <;> decide

theorem digitsVal_append (l : List Char) (c : Char) :
    digitsVal (l ++ [c]) = digitsVal l * 10 + charVal c := by
  unfold digitsVal
  rw [List.foldl_append]
  rfl

theorem digitsVal_natDigitsAux (fuel n : Nat) (h : n < fuel) :
    digitsVal (natDigitsAux fuel n) = n := by
  induction fuel generalizing n with
  | zero => omega
  | succ fuel ih =>
    unfold natDigitsAux
    by_cases h10 : n < 10
    · simp only [if_pos h10]
      unfold digitsVal
      simp [List.foldl, charVal_digitChar n h10]
    · simp only [if_neg h10]
      rw [digitsVal_append]
      have hdiv : n / 10 < fuel := by
        have h1 : n / 10 < n := Nat.div_lt_self (by omega) (by omega)
        omega
      rw [ih (n / 10) hdiv, charVal_digitChar (n % 10) (Nat.mod_lt n (by omega))]
      omega

theorem digitsVal_natDigits (n : Nat) : digitsVal (natDigits n) = n :=
  digitsVal_natDigitsAux (n + 1) n (Nat.lt_succ_self n)

theorem natToString_injective : Function.Injective natToString := by
  intro a b h
  have hdata : natDigits a = natDigits b := congrArg String.data h
  have := congrArg digitsVal hdata
  rwa [digitsVal_natDigits, digitsVal_natDigits] at this

theorem mem_updateFirst_find {p : Agent → Bool} {f : Agent → Agent}
    {l : List Agent} {x : Agent} (hx : x ∈ updateFirst p f l) :
    x ∈ l ∨ ∃ a, l.find? p = some a ∧ x = f a := by
  induction l with
  | nil => simp [updateFirst] at hx
  | cons b t ih =>
    by_cases hb : p b
    · rw [updateFirst, if_pos hb] at hx
      rcases List.mem_cons.mp hx with hfb | ht
      · exact Or.inr ⟨b, by rw [List.find?_cons_of_pos _ hb], hfb⟩
      · exact Or.inl (List.mem_cons_of_mem _ ht)
    · rw [updateFirst, if_neg hb] at hx
      rcases List.mem_cons.mp hx with hxb | ht
      · exact Or.inl (hxb ▸ List.mem_cons_self _ _)
      · rcases ih ht with hmem | ⟨a, hfind, hxa⟩
        · exact Or.inl (List.mem_cons_of_mem _ hmem)
        · exact Or.inr ⟨a, by rw [List.find?_cons_of_neg _ hb]; exact hfind, hxa⟩

theorem find?_updateFirst {p : Agent → Bool} {f : Agent → Agent}
    {l : List Agent} {a : Agent} (h : l.find? p = some a)
    (hfa : p (f a) = true) : (updateFirst p f l).find? p = some (f a) := by
  induction l with
  | nil => simp at h
  | cons b t ih =>
    by_cases hb : p b
    · rw [List.find?_cons_of_pos _ hb] at h
      obtain rfl : b = a := by injection h
      rw [updateFirst, if_pos hb, List.find?_cons_of_pos _ hfa]
    · rw [List.find?_cons_of_neg _ hb] at h
      rw [updateFirst, if_neg hb, List.find?_cons_of_neg _ hb]
      exact ih h

theorem get_agent_set_agent {s : State} {id : String} {f : Agent → Agent}
    {a : Agent} (hget : s.get_agent id = some a) (hid : (f a).id = a.id) :
    (s.set_agent id f).get_agent id = some (f a) := by
  unfold State.get_agent at *
  unfold State.set_agent
  apply find?_updateFirst hget
  have hpa := List.find?_some hget
  simpa [hid] using hpa

theorem applyTerminal_state (o : Orch) (id : String) (ns : AgentStatus)
    (w : StatusOracle) :
    (o.applyTerminal id ns w).2.state =
      o.state.set_agent id (fun a => { a with status := ns, completed_at := some w.now }) := by
  unfold Orch.applyTerminal
  split <;> rfl

theorem applyTerminal_fst (o : Orch) (id : String) (ns : AgentStatus)
    (w : StatusOracle) (hs : w.saveOk = true) :
    (o.applyTerminal id ns w).1 = .ok ns := by
  unfold Orch.applyTerminal
  rw [if_pos hs]

theorem launch_shape (o : Orch) (req : LaunchRequest) (w : LaunchOracle) :
    ((o.launch req w).2.state.next_id = o.state.next_id + 1) ∧
    ((o.launch req w).2.state.agents = o.state.agents ∨
      ∃ branch base path,
        (o.launch req w).2.state.agents = o.state.agents ++
          [Agent.new (natToString o.state.next_id) req.task branch base path
            o.session (natToString o.state.next_id) req.provider w.now]) := by
  unfold Orch.launch
  cases hrb : resolveBranch req w (natToString o.state.next_id) with
  | error e => simp [hrb]
  | ok v =>
    obtain ⟨branch, base, path⟩ := v
    cases hes : w.ensure_session with
    | error e => simp [hrb, hes]
    | ok u1 =>
      cases hcw : w.create_window with
      | error e => simp [hrb, hes, hcw]
      | ok u2 =>
        cases hwp : w.write_prompt with
        | error e => simp [hrb, hes, hcw, hwp]
        | ok u3 =>
          cases hsk : w.send_keys with
          | error e => simp [hrb, hes, hcw, hwp, hsk]
          | ok u4 =>
            by_cases hsv : w.saveOk
            · refine ⟨by simp [hrb, hes, hcw, hwp, hsk, hsv], Or.inr ?_⟩
              exact ⟨branch, base, path, by simp [hrb, hes, hcw, hwp, hsk, hsv]⟩
            · refine ⟨by simp [hrb, hes, hcw, hwp, hsk, hsv], Or.inr ?_⟩
              exact ⟨branch, base, path, by simp [hrb, hes, hcw, hwp, hsk, hsv]⟩

theorem completedAtInv_launch (o : Orch) (req : LaunchRequest) (w : LaunchOracle)
    (h : completedAtInv o.state) : completedAtInv (o.launch req w).2.state := by
  rcases (launch_shape o req w).2 with heq | ⟨branch, base, path, heq⟩
  · intro a ha
    rw [heq] at ha
    exact h a ha
  · intro a ha
    rw [heq] at ha
    rcases List.mem_append.mp ha with hmem | hnew
    · exact h a hmem
    · obtain rfl : a = Agent.new (natToString o.state.next_id) req.task branch
          base path o.session (natToString o.state.next_id) req.provider w.now :=
        List.mem_singleton.mp hnew
      simp [Agent.new]

theorem completedAtInv_applyTerminal (o : Orch) (id : String) (ns : AgentStatus)
    (w : StatusOracle) (hns : ns ≠ AgentStatus.running)
    (h : completedAtInv o.state) :
    completedAtInv (o.applyTerminal id ns w).2.state := by
  rw [applyTerminal_state]
  intro x hx
  rcases mem_updateFirst_find hx with hmem | ⟨a, hfind, rfl⟩
  · exact h x hmem
  · exact ⟨fun hc => absurd hc (by simp), fun hr => absurd hr hns⟩

theorem completedAtInv_check (o : Orch) (id : String) (w : StatusOracle)
    (h : completedAtInv o.state) : completedAtInv (o.check_status id w).2.state := by
  unfold Orch.check_status
  cases hget : o.state.get_agent id with
  | none => simpa [hget] using h
  | some agent =>
    by_cases hst : agent.status = AgentStatus.running
    · cases hrf : w.readFile with
      | none =>
        by_cases hwin : w.window_exists
        · simpa [hget, hst, hrf, hwin] using h
        · simpa [hget, hst, hrf, hwin] using
            completedAtInv_applyTerminal o id AgentStatus.failed w (by simp) h
      | some r =>
        cases r with
        | error e => simpa [hget, hst, hrf] using h
        | ok j =>
          cases hsf : statusFieldStr j with
          | none => simpa [hget, hst, hrf, hsf] using h
          | some s =>
            by_cases hc : s = "completed"
            · simpa [hget, hst, hrf, hsf, hc] using
                completedAtInv_applyTerminal o id AgentStatus.completed w (by simp) h
            · by_cases hf : s = "failed"
              · simpa [hget, hst, hrf, hsf, hc, hf] using
                  completedAtInv_applyTerminal o id AgentStatus.failed w (by simp) h
              · simpa [hget, hst, hrf, hsf, hc, hf] using h
    · simpa [hget, hst] using h

theorem completedAtInv_merge (o : Orch) (id : String) (strategy : MergeStrategy)
    (force : Bool) (w : MergeOracle)
    (hsafe : ∀ agent, o.state.get_agent id = some agent →
      agent.status ≠ AgentStatus.running ∨ force = false)
    (h : completedAtInv o.state) :
    completedAtInv (o.merge id strategy force w).2.state := by
  unfold Orch.merge
  cases hget : o.state.get_agent id with
  | none => simpa [hget] using h
  | some agent =>
    by_cases hrun : agent.status = AgentStatus.running ∧ force = false
    · simpa [hget, hrun] using h
    · cases hmb : merge_branch w.git agent.branch agent.base_branch strategy with
      | error e => simpa [hget, hrun, hmb] using h
      | ok result =>
        by_cases hrs : result.success = true
        · by_cases hro : w.repoOpenOk = true
          · have hnotrun : agent.status ≠ AgentStatus.running := by
              rcases hsafe agent hget with hne | hforce
              · exact hne
              · intro hstat
                exact hrun ⟨hstat, hforce⟩
            have hinv : completedAtInv
                (o.state.set_agent id (fun a => { a with status := AgentStatus.merged })) := by
              intro x hx
              rcases mem_updateFirst_find hx with hmem | ⟨a, hfind, rfl⟩
              · exact h x hmem
              · have haa : agent = a := by
                  have h2 := hfind
                  unfold State.get_agent at hget
                  rw [hget] at h2
                  injection h2
                have hmemo : a ∈ o.state.agents :=
                  List.mem_of_find?_eq_some hfind
                have hiff := h a hmemo
                have hanot : a.status ≠ AgentStatus.running := haa ▸ hnotrun
                constructor
                · intro hc
                  exact absurd (hiff.mp hc) hanot
                · intro hr
                  exact absurd hr (by simp)
            by_cases hsv : w.saveOk
            · simpa [hget, hrun, hmb, hrs, hro, hsv, State.set_agent] using hinv
            · simpa [hget, hrun, hmb, hrs, hro, hsv, State.set_agent] using hinv
          · simpa [hget, hrun, hmb, hrs, hro] using h
        · simpa [hget, hrun, hmb, hrs] using h

theorem completedAtInv_remove_agent (s : State) (id : String)
    (h : completedAtInv s) : completedAtInv (s.remove_agent id) := by
  intro x hx
  exact h x (List.mem_of_mem_filter hx)

theorem completedAtInv_remove (o : Orch) (id : String) (force : Bool)
    (w : RemoveOracle) (h : completedAtInv o.state) :
    completedAtInv (o.remove id force w).2.state := by
  unfold Orch.remove
  rcases hcs : o.check_status id w.check with ⟨r, o1⟩
  have h1 : completedAtInv o1.state := by
    have hc := completedAtInv_check o id w.check h
    rwa [hcs] at hc
  cases r with
  | error e => simpa using h1
  | ok st =>
    cases hga : o1.state.get_agent id with
    | none => simpa [hga] using h1
    | some agent =>
      by_cases hrun : (agent.status = AgentStatus.running ∧ w.window_exists = true)
          ∧ force = false
      · simpa [hga, hrun] using h1
      · by_cases hro : w.repoOpenOk = true
        · by_cases hsv : w.saveOk
          · simpa [hga, hrun, hro, hsv] using completedAtInv_remove_agent o1.state id h1
          · simpa [hga, hrun, hro, hsv] using completedAtInv_remove_agent o1.state id h1
        · simpa [hga, hrun, hro] using h1

theorem completedAtInv_pruneGo (toPrune : List Agent) (i : Nat) (o : Orch)
    (acc : List Agent) (saveOk : Nat → Bool) (h : completedAtInv o.state) :
    completedAtInv (pruneGo toPrune i o acc saveOk).2.state := by
  induction toPrune generalizing i o acc with
  | nil => simpa [pruneGo] using h
  | cons a rest ih =>
    unfold pruneGo
    by_cases hsv : saveOk i
    · simpa [hsv] using
        ih (i + 1) _ (a :: acc) (completedAtInv_remove_agent o.state a.id h)
    · simpa [hsv] using completedAtInv_remove_agent o.state a.id h

theorem completedAtInv_prune (o : Orch) (filter : PruneFilter)
    (saveOk : Nat → Bool) (h : completedAtInv o.state) :
    completedAtInv (o.prune filter saveOk).2.state :=
  completedAtInv_pruneGo _ 0 o [] saveOk h

theorem idInv_launch (o : Orch) (req : LaunchRequest) (w : LaunchOracle)
    (h : idInv o.state) : idInv (o.launch req w).2.state := by
  obtain ⟨hn, hcases⟩ := launch_shape o req w
  rcases hcases with heq | ⟨branch, base, path, heq⟩
  · intro a ha
    rw [heq] at ha
    obtain ⟨k, hk1, hk2⟩ := h a ha
    exact ⟨k, hk1, by rw [hn]; omega⟩
  · intro a ha
    rw [heq] at ha
    rcases List.mem_append.mp ha with hmem | hnew
    · obtain ⟨k, hk1, hk2⟩ := h a hmem
      exact ⟨k, hk1, by rw [hn]; omega⟩
    · obtain rfl := List.mem_singleton.mp hnew
      exact ⟨o.state.next_id, rfl, by rw [hn]; omega⟩

theorem runLaunches_next_id (o : Orch) (calls : List (LaunchRequest × LaunchOracle)) :
    (runLaunches o calls).1.state.next_id = o.state.next_id + calls.length := by
  induction calls generalizing o with
  | nil => simp [runLaunches]
  | cons c rest ih =>
    obtain ⟨req, w⟩ := c
    have h1 := (launch_shape o req w).1
    have h2 := ih (o.launch req w).2
    simp only [runLaunches]
    rw [h2, h1]
    simp only [List.length_cons]
    omega

theorem runLaunches_ids (o : Orch) (calls : List (LaunchRequest × LaunchOracle)) :
    (runLaunches o calls).2 =
      (List.range calls.length).map (fun i => natToString (o.state.next_id + i)) := by
  induction calls generalizing o with
  | nil => simp [runLaunches]
  | cons c rest ih =>
    obtain ⟨req, w⟩ := c
    have h1 := (launch_shape o req w).1
    have h2 := ih (o.launch req w).2
    simp only [runLaunches, List.length_cons, List.range_succ_eq_map, List.map_cons,
      List.map_map]
    congr 1
    rw [h2, h1]
    apply List.map_congr_left
    intro i hi
    simp only [Function.comp]
    exact congrArg natToString (by omega)

theorem idInv_runLaunches (o : Orch) (calls : List (LaunchRequest × LaunchOracle))
    (h : idInv o.state) : idInv (runLaunches o calls).1.state := by
  induction calls generalizing o with
  | nil => simpa [runLaunches] using h
  | cons c rest ih =>
    obtain ⟨req, w⟩ := c
    simpa [runLaunches] using ih (o.launch req w).2 (idInv_launch o req w h)

theorem run_git_error {r : Option CmdOut} {e : Error}
    (h : run_git r = .error e) : e = .io := by
  cases r with
  | none =>
    simp only [run_git] at h
    injection h with h2
    exact h2.symm
  | some out => simp [run_git] at h

theorem run_git_checked_error {r : Option CmdOut} {c : String} {e : Error}
    (h : run_git_checked r c = .error e) :
    e = .io ∨ ∃ s, e = .commandFailed c s := by
  cases r with
  | none =>
    simp only [run_git_checked, run_git] at h
    injection h with h2
    exact Or.inl h2.symm
  | some out =>
    simp only [run_git_checked, run_git] at h
    by_cases hs : out.success = true
    · rw [if_pos hs] at h
      simp at h
    · rw [if_neg hs] at h
      injection h with h2
      exact Or.inr ⟨out.stderr, h2.symm⟩

theorem get_conflict_files_error {w : GitWorld} {e : Error}
    (h : get_conflict_files w = .error e) : e = .io := by
  unfold get_conflict_files at h
  cases hrg : run_git w.diff_unmerged with
  | error e2 =>
    simp only [hrg] at h
    injection h with h2
    exact h2 ▸ run_git_error hrg
  | ok out =>
    simp only [hrg] at h
    simp at h

theorem conflict_match_error {w : GitWorld} {e : Error}
    (h : (match get_conflict_files w with
      | .error e2 => (.error e2 : Except Error MergeResult)
      | .ok conflicts => .error (.mergeConflict conflicts)) = .error e) :
    e = .io ∨ ∃ fs, e = .mergeConflict fs := by
  cases hcf : get_conflict_files w with
  | error e2 =>
    rw [hcf] at h
    injection h with h2
    exact Or.inl (h2 ▸ get_conflict_files_error hcf)
  | ok conflicts =>
    rw [hcf] at h
    injection h with h2
    exact Or.inr ⟨conflicts, h2.symm⟩

theorem do_merge_error {w : GitWorld} {b : String} {e : Error}
    (h : do_merge w b = .error e) :
    e = .io ∨ (∃ c s, e = .commandFailed c s) ∨ ∃ fs, e = .mergeConflict fs := by
  unfold do_merge at h
  cases hrg : run_git w.merge_cmd with
  | error e2 =>
    simp only [hrg] at h
    injection h with h2
    exact Or.inl (h2 ▸ run_git_error hrg)
  | ok out =>
    simp only [hrg] at h
    by_cases hs : out.success = true
    · rw [if_pos hs] at h
      simp at h
    · rw [if_neg hs] at h
      by_cases hc : has_conflict out.stderr = true
      · rw [if_pos hc] at h
        rcases conflict_match_error h with h2 | h2
        · exact Or.inl h2
        · exact Or.inr (Or.inr h2)
      · rw [if_neg hc] at h
        injection h with h2
        exact Or.inr (Or.inl ⟨"git merge", out.stderr, h2.symm⟩)

theorem do_rebase_error {w : GitWorld} {b bb : String} {e : Error}
    (h : do_rebase w b bb = .error e) :
    e = .io ∨ (∃ c s, e = .commandFailed c s) ∨ ∃ fs, e = .mergeConflict fs := by
  unfold do_rebase at h
  cases hck : run_git_checked w.checkout_branch "git checkout" with
  | error e2 =>
    simp only [hck] at h
    injection h with h2
    subst h2
    rcases run_git_checked_error hck with h3 | ⟨s, h3⟩
    · exact Or.inl h3
    · exact Or.inr (Or.inl ⟨"git checkout", s, h3⟩)
  | ok u =>
    simp only [hck] at h
    cases hrg : run_git w.rebase_cmd with
    | error e2 =>
      simp only [hrg] at h
      injection h with h2
      exact Or.inl (h2 ▸ run_git_error hrg)
    | ok out =>
      simp only [hrg] at h
      by_cases hs : out.success = true
      · rw [if_pos hs] at h
        cases hck2 : run_git_checked w.checkout_base_after "git checkout" with
        | error e2 =>
          simp only [hck2] at h
          injection h with h2
          subst h2
          rcases run_git_checked_error hck2 with h3 | ⟨s, h3⟩
          · exact Or.inl h3
          · exact Or.inr (Or.inl ⟨"git checkout", s, h3⟩)
        | ok u2 =>
          simp only [hck2] at h
          cases hff : run_git_checked w.ff_merge "git merge --ff-only" with
          | error e2 =>
            simp only [hff] at h
            injection h with h2
            subst h2
            rcases run_git_checked_error hff with h3 | ⟨s, h3⟩
            · exact Or.inl h3
            · exact Or.inr (Or.inl ⟨"git merge --ff-only", s, h3⟩)
          | ok u3 =>
            simp only [hff] at h
            simp at h
      · rw [if_neg hs] at h
        by_cases hc : has_conflict out.stderr = true
        · rw [if_pos hc] at h
          rcases conflict_match_error h with h2 | h2
          · exact Or.inl h2
          · exact Or.inr (Or.inr h2)
        · rw [if_neg hc] at h
          injection h with h2
          exact Or.inr (Or.inl ⟨"git rebase", out.stderr, h2.symm⟩)

theorem do_squash_error {w : GitWorld} {b : String} {e : Error}
    (h : do_squash_merge w b = .error e) :
    e = .io ∨ (∃ c s, e = .commandFailed c s) ∨ ∃ fs, e = .mergeConflict fs := by
  unfold do_squash_merge at h
  cases hrg : run_git w.squash_cmd with
  | error e2 =>
    simp only [hrg] at h
    injection h with h2
    exact Or.inl (h2 ▸ run_git_error hrg)
  | ok out =>
    simp only [hrg] at h
    by_cases hs : out.success = true
    · rw [if_pos hs] at h
      cases hcm : run_git_checked w.commit_cmd "git commit" with
      | error e2 =>
        simp only [hcm] at h
        injection h with h2
        subst h2
        rcases run_git_checked_error hcm with h3 | ⟨s, h3⟩
        · exact Or.inl h3
        · exact Or.inr (Or.inl ⟨"git commit", s, h3⟩)
      | ok u =>
        simp only [hcm] at h
        simp at h
    · rw [if_neg hs] at h
      by_cases hc : has_conflict out.stderr = true
      · rw [if_pos hc] at h
        rcases conflict_match_error h with h2 | h2
        · exact Or.inl h2
        · exact Or.inr (Or.inr h2)
      · rw [if_neg hc] at h
        injection h with h2
        exact Or.inr (Or.inl ⟨"git merge --squash", out.stderr, h2.symm⟩)

theorem merge_branch_error {w : GitWorld} {b bb : String} {strategy : MergeStrategy}
    {e : Error} (h : merge_branch w b bb strategy = .error e) :
    e = .io ∨ (∃ c s, e = .commandFailed c s) ∨ ∃ fs, e = .mergeConflict fs := by
  unfold merge_branch at h
  cases hck : run_git_checked w.checkout_base "git checkout" with
  | error e2 =>
    simp only [hck] at h
    injection h with h2
    subst h2
    rcases run_git_checked_error hck with h3 | ⟨s, h3⟩
    · exact Or.inl h3
    · exact Or.inr (Or.inl ⟨"git checkout", s, h3⟩)
  | ok u =>
    simp only [hck] at h
    cases strategy with
    | merge => exact do_merge_error h
    | rebase => exact do_rebase_error h
    | squash => exact do_squash_error h

theorem decodeAgent_encodeAgent (a : Agent) : decodeAgent (encodeAgent a) = some a := by
  cases a with
  | mk id task branch base_branch worktree_path tmux_session tmux_window status
      provider spawned_at completed_at =>
    cases status <;> cases provider <;> cases completed_at <;> rfl

theorem decodeAgents_map (l : List Agent) : decodeAgents (l.map encodeAgent) = some l := by
  induction l with
  | nil => rfl
  | cons a t ih =>
    simp only [List.map_cons, decodeAgents, decodeAgent_encodeAgent, ih]

theorem decodeState_encodeState (s : State) : decodeState (encodeState s) = some s := by
  cases s with
  | mk n agents =>
    simp [decodeState, encodeState, decodeAgents_map, decodeTime, List.lookup]

/-! Claim theorems. -/

/-- Claim C8 counterexample: the claimed equivalence truncate(s, n) = s iff
len(s) <= n fails at s = "..." and n = 2: the truncated output "..." equals
the input although the input is longer than n. -/
theorem truncate_task_iff_cex :
    truncate_task ['.', '.', '.'] 2 = ['.', '.', '.'] ∧
      ¬ (['.', '.', '.'] : List Char).length ≤ 2 := by
  decide

/-- Claim C8 (amended): for every string s and bound n, the truncation
helper satisfies len(truncate_task(s, n)) <= max(n, 3); truncate_task(s, n)
equals s whenever len(s) <= n; and for n >= 3 the equality holds exactly
when len(s) <= n (for n < 3 the input "..." is a fixed point despite
exceeding the bound). -/
theorem truncate_task_spec (s : List Char) (n : Nat) :
    (truncate_task s n).length ≤ max n 3 ∧
    (s.length ≤ n → truncate_task s n = s) ∧
    (3 ≤ n → (truncate_task s n = s ↔ s.length ≤ n)) := by
  refine ⟨?_, ?_, ?_⟩
  · unfold truncate_task
    by_cases h : n < s.length
    · rw [if_pos h]
      simp only [List.length_append, List.length_take, List.length_cons,
        List.length_nil]
      omega
    · rw [if_neg h]
      omega
  · intro hle
    unfold truncate_task
    rw [if_neg (by omega)]
  · intro h3
    constructor
    · intro heq
      by_contra hgt
      push_neg at hgt
      have hlen := congrArg List.length heq
      unfold truncate_task at hlen
      rw [if_pos hgt] at hlen
      simp only [List.length_append, List.length_take, List.length_cons,
        List.length_nil] at hlen
      omega
    · intro hle
      unfold truncate_task
      rw [if_neg (by omega)]

/-- Witness for the amended C8 statement at a concrete input. -/
theorem truncate_task_spec_witness : truncate_task ['a'] 5 = ['a'] :=
  (truncate_task_spec ['a'] 5).2.1 (by decide)

/-- Claim C9 counterexample: with extra_args = ["--dangerously-allow-all"]
the built command carries the flag twice (once hard-coded, once from the
joined extra_args), so it is not the claimed exact command. -/
theorem build_claude_dangerous_cex :
    build_claude_command "/w" "/p" "/s/1.json" ["--dangerously-allow-all"] =
      "cd /w && cat /p | claude --dangerously-allow-all --dangerously-allow-all" ∧
    build_claude_command "/w" "/p" "/s/1.json" ["--dangerously-allow-all"] ≠
      "cd /w && cat /p | claude --dangerously-allow-all" := by
  constructor
  · rfl
  · decide

/-- Claim C9 (amended): when extra_args contains --dangerously-allow-all,
the Claude builder skips the default --permission-mode and --allowedTools
flags and produces cd worktree, cat prompt piped to claude with the
hard-coded flag followed by a space and all of extra_args joined by
spaces (so the flag occurs again, once per occurrence in extra_args). -/
theorem build_claude_dangerous (wt pf sf : String) (extra_args : List String)
    (h : extra_args.contains "--dangerously-allow-all" = true) :
    build_claude_command wt pf sf extra_args =
      "cd " ++ wt ++ " && cat " ++ pf ++ " | claude --dangerously-allow-all" ++
        " " ++ String.intercalate " " extra_args := by
  have hne : ¬ extra_args.isEmpty = true := by
    cases extra_args with
    | nil => simp [List.contains] at h
    | cons a t => simp
  unfold build_claude_command joinExtraArgs
  rw [if_pos h, if_neg hne]
  simp only [String.append_assoc]

/-- Witness for the amended C9 statement at a concrete input. -/
theorem build_claude_dangerous_witness :
    build_claude_command "/w" "/p" "/s/1.json" ["--dangerously-allow-all"] =
      "cd " ++ "/w" ++ " && cat " ++ "/p" ++ " | claude --dangerously-allow-all" ++
        " " ++ String.intercalate " " ["--dangerously-allow-all"] :=
  build_claude_dangerous "/w" "/p" "/s/1.json" ["--dangerously-allow-all"] (by decide)

/-- Claim C10: whenever merge_branch returns a MergeResult rather than an
error, that result has success = true and an empty conflicts list; the
conflicted-files case surfaces only as the MergeConflict error. -/
theorem merge_branch_ok_success (w : GitWorld) (branch base_branch : String)
    (strategy : MergeStrategy) (r : MergeResult)
    (h : merge_branch w branch base_branch strategy = .ok r) :
    r.success = true ∧ r.conflicts = [] := by
  unfold merge_branch at h
  cases hck : run_git_checked w.checkout_base "git checkout" with
  | error e =>
    simp only [hck] at h
    exact Except.noConfusion h
  | ok u =>
    simp only [hck] at h
    cases strategy with
    | merge =>
      unfold do_merge at h
      cases hrg : run_git w.merge_cmd with
      | error e =>
        simp only [hrg] at h
        exact Except.noConfusion h
      | ok out =>
        simp only [hrg] at h
        by_cases hs : out.success = true
        · rw [if_pos hs] at h
          injection h with h2
          rw [← h2]
          exact ⟨rfl, rfl⟩
        · rw [if_neg hs] at h
          by_cases hc : has_conflict out.stderr = true
          · rw [if_pos hc] at h
            cases hcf : get_conflict_files w <;> simp [hcf] at h
          · rw [if_neg hc] at h
            simp at h
    | rebase =>
      unfold do_rebase at h
      cases hck2 : run_git_checked w.checkout_branch "git checkout" with
      | error e =>
        simp only [hck2] at h
        exact Except.noConfusion h
      | ok u2 =>
        simp only [hck2] at h
        cases hrg : run_git w.rebase_cmd with
        | error e =>
        simp only [hrg] at h
        exact Except.noConfusion h
        | ok out =>
          simp only [hrg] at h
          by_cases hs : out.success = true
          · rw [if_pos hs] at h
            cases hck3 : run_git_checked w.checkout_base_after "git checkout" with
            | error e =>
        simp only [hck3] at h
        exact Except.noConfusion h
            | ok u3 =>
              simp only [hck3] at h
              cases hff : run_git_checked w.ff_merge "git merge --ff-only" with
              | error e =>
        simp only [hff] at h
        exact Except.noConfusion h
              | ok u4 =>
                simp only [hff] at h
                injection h with h2
                rw [← h2]
                exact ⟨rfl, rfl⟩
          · rw [if_neg hs] at h
            by_cases hc : has_conflict out.stderr = true
            · rw [if_pos hc] at h
              cases hcf : get_conflict_files w <;> simp [hcf] at h
            · rw [if_neg hc] at h
              simp at h
    | squash =>
      unfold do_squash_merge at h
      cases hrg : run_git w.squash_cmd with
      | error e =>
        simp only [hrg] at h
        exact Except.noConfusion h
      | ok out =>
        simp only [hrg] at h
        by_cases hs : out.success = true
        · rw [if_pos hs] at h
          cases hcm : run_git_checked w.commit_cmd "git commit" with
          | error e =>
        simp only [hcm] at h
        exact Except.noConfusion h
          | ok u2 =>
            simp only [hcm] at h
            injection h with h2
            rw [← h2]
            exact ⟨rfl, rfl⟩
        · rw [if_neg hs] at h
          by_cases hc : has_conflict out.stderr = true
          · rw [if_pos hc] at h
            cases hcf : get_conflict_files w <;> simp [hcf] at h
          · rw [if_neg hc] at h
            simp at h

/-- Witness for C10 at a concrete all-success git world. -/
theorem merge_branch_ok_success_witness :
    (MergeResult.mk true "Successfully merged b" []).success = true ∧
    (MergeResult.mk true "Successfully merged b" []).conflicts = [] :=
  merge_branch_ok_success gitAllOk "b" "m" MergeStrategy.merge
    (MergeResult.mk true "Successfully merged b" []) rfl

/-- Claim C5: saving any registry state and loading it back through
load_or_create yields the same next_id and the same agents sequence. -/
theorem state_save_load_roundtrip (s : State) (dir : String) (fs : FS) :
    load_or_create dir (saveState s dir fs) = .ok s := by
  unfold load_or_create saveState
  rw [if_pos rfl]
  simp only [decodeState_encodeState]

/-- Claim C1: for a Running agent whose status file exists and parses as
a JSON object, a "completed"/"failed" status field value drives the
transition to Completed/Failed with completed_at stamped; any other
status field value (a different string, or a missing/non-string field)
leaves the agent Running with the registry unchanged. -/
theorem check_status_terminal (o : Orch) (id : String) (agent : Agent)
    (w : StatusOracle) (j : Json)
    (hget : o.state.get_agent id = some agent)
    (hrun : agent.status = AgentStatus.running)
    (hfile : w.readFile = some (.ok j))
    (hsave : w.saveOk = true) :
    (statusFieldStr j = some "completed" →
      (o.check_status id w).1 = .ok AgentStatus.completed ∧
      (o.check_status id w).2.state.get_agent id =
        some { agent with
          status := AgentStatus.completed
          completed_at := some w.now }) ∧
    (statusFieldStr j = some "failed" →
      (o.check_status id w).1 = .ok AgentStatus.failed ∧
      (o.check_status id w).2.state.get_agent id =
        some { agent with
          status := AgentStatus.failed
          completed_at := some w.now }) ∧
    (∀ s, statusFieldStr j = some s → s ≠ "completed" → s ≠ "failed" →
      (o.check_status id w).1 = .ok AgentStatus.running ∧
      (o.check_status id w).2 = o) ∧
    (statusFieldStr j = none →
      (o.check_status id w).1 = .ok AgentStatus.running ∧
      (o.check_status id w).2 = o) := by
  refine ⟨?_, ?_, ?_, ?_⟩
  · intro hsf
    constructor
    · simp only [Orch.check_status, hget, hrun, hfile, hsf]
      simp only [ne_eq, not_true_eq_false, if_false, reduceIte]
      exact applyTerminal_fst o id AgentStatus.completed w hsave
    · simp only [Orch.check_status, hget, hrun, hfile, hsf]
      simp only [ne_eq, not_true_eq_false, if_false, reduceIte]
      rw [applyTerminal_state]
      exact get_agent_set_agent hget rfl
  · intro hsf
    constructor
    · simp only [Orch.check_status, hget, hrun, hfile, hsf]
      simp only [ne_eq, not_true_eq_false, if_false, reduceIte]
      rw [if_neg (show ¬("failed" = "completed") by decide)]
      exact applyTerminal_fst o id AgentStatus.failed w hsave
    · simp only [Orch.check_status, hget, hrun, hfile, hsf]
      simp only [ne_eq, not_true_eq_false, if_false, reduceIte]
      rw [if_neg (show ¬("failed" = "completed") by decide)]
      rw [applyTerminal_state]
      exact get_agent_set_agent hget rfl
  · intro s hsf hnc hnf
    constructor
    · simp only [Orch.check_status, hget, hrun, hfile, hsf]
      simp [hnc, hnf]
    · simp only [Orch.check_status, hget, hrun, hfile, hsf]
      simp [hnc, hnf]
  · intro hsf
    constructor
    · simp only [Orch.check_status, hget, hrun, hfile, hsf]
      simp
    · simp only [Orch.check_status, hget, hrun, hfile, hsf]
      simp

/-- Witness for C1 at a concrete Running agent and completed status file. -/
theorem check_status_terminal_witness :
    (orchA.check_status "1" wCompleted).1 = .ok AgentStatus.completed ∧
    (orchA.check_status "1" wCompleted).2.state.get_agent "1" =
      some { agentA with
        status := AgentStatus.completed
        completed_at := some wCompleted.now } :=
  (check_status_terminal orchA "1" agentA wCompleted
    (Json.obj [("status", Json.str "completed")]) rfl rfl rfl rfl).1 rfl

/-- Claim C2 counterexample: the window-disappearance fallback does not
apply when the status file exists but does not yield a terminal status.
With the file holding status "unknown" and the tmux window gone,
check_status leaves the agent Running and the registry untouched instead
of declaring it Failed as the claim requires. -/
theorem check_status_window_fallback_cex :
    wUnknown.window_exists = false ∧
    (orchA.check_status "1" wUnknown).1 = .ok AgentStatus.running ∧
    (orchA.check_status "1" wUnknown).2 = orchA :=
  ⟨rfl, rfl, rfl⟩

/-- Claim C2 (amended): for a Running agent, when the status file does
not exist and the tmux window no longer exists, check_status sets the
agent to Failed and stamps completed_at; if the window still exists the
agent is left as Running with the registry unchanged. -/
theorem check_status_window_fallback (o : Orch) (id : String) (agent : Agent)
    (w : StatusOracle)
    (hget : o.state.get_agent id = some agent)
    (hrun : agent.status = AgentStatus.running)
    (hfile : w.readFile = none)
    (hsave : w.saveOk = true) :
    (w.window_exists = false →
      (o.check_status id w).1 = .ok AgentStatus.failed ∧
      (o.check_status id w).2.state.get_agent id =
        some { agent with
          status := AgentStatus.failed
          completed_at := some w.now }) ∧
    (w.window_exists = true →
      (o.check_status id w).1 = .ok AgentStatus.running ∧
      (o.check_status id w).2 = o) := by
  constructor
  · intro hwin
    constructor
    · simp only [Orch.check_status, hget, hrun, hfile, hwin]
      simp only [ne_eq, not_true_eq_false, if_false, reduceIte, Bool.false_eq_true]
      exact applyTerminal_fst o id AgentStatus.failed w hsave
    · simp only [Orch.check_status, hget, hrun, hfile, hwin]
      simp only [ne_eq, not_true_eq_false, if_false, reduceIte, Bool.false_eq_true]
      rw [applyTerminal_state]
      exact get_agent_set_agent hget rfl
  · intro hwin
    constructor
    · simp only [Orch.check_status, hget, hrun, hfile, hwin]
      simp
    · simp only [Orch.check_status, hget, hrun, hfile, hwin]
      simp

/-- Witness for the amended C2 statement at a concrete dead-window world. -/
theorem check_status_window_fallback_witness :
    (orchA.check_status "1" wGone).1 = .ok AgentStatus.failed ∧
    (orchA.check_status "1" wGone).2.state.get_agent "1" =
      some { agentA with
        status := AgentStatus.failed
        completed_at := some wGone.now } :=
  (check_status_window_fallback orchA "1" agentA wGone rfl rfl rfl rfl).1 rfl

/-- Claim C6: for an existing agent, merge returns AgentStillRunning
exactly when the recorded status is Running and force is false; and a
MergeConflict error leaves the orchestrator state (hence the agent's
registry record) unchanged. -/
theorem merge_error_behavior (o : Orch) (id : String) (agent : Agent)
    (strategy : MergeStrategy) (force : Bool) (w : MergeOracle)
    (hget : o.state.get_agent id = some agent) :
    ((o.merge id strategy force w).1 = .error (.agentStillRunning id) ↔
      (agent.status = AgentStatus.running ∧ force = false)) ∧
    (∀ files, (o.merge id strategy force w).1 = .error (.mergeConflict files) →
      (o.merge id strategy force w).2 = o) := by
  unfold Orch.merge
  by_cases hrun : agent.status = AgentStatus.running ∧ force = false
  · simp only [hget, if_pos hrun]
    refine ⟨⟨fun _ => hrun, fun _ => by trivial⟩, ?_⟩
    intro files hcontra
    simp at hcontra
  · simp only [hget, if_neg hrun]
    cases hmb : merge_branch w.git agent.branch agent.base_branch strategy with
    | error e =>
      simp only [hmb]
      refine ⟨⟨?_, fun hcond => absurd hcond hrun⟩, fun files _ => by trivial⟩
      intro heq
      rcases merge_branch_error hmb with h3 | ⟨c, s2, h3⟩ | ⟨fs, h3⟩ <;>
        rw [h3] at heq <;> simp at heq
    | ok result =>
      simp only [hmb]
      by_cases hrs : result.success = true
      · by_cases hro : w.repoOpenOk = true
        · by_cases hsv : w.saveOk
          · simp only [hrs, hro, hsv, if_true, reduceIte]
            refine ⟨⟨?_, fun hcond => absurd hcond hrun⟩, ?_⟩
            · intro heq
              simp at heq
            · intro files heq
              simp at heq
          · simp only [hrs, hro, hsv, if_true, if_false, reduceIte, Bool.false_eq_true]
            refine ⟨⟨?_, fun hcond => absurd hcond hrun⟩, ?_⟩
            · intro heq
              simp at heq
            · intro files heq
              simp at heq
        · simp only [hrs, hro, if_true, if_false, reduceIte, Bool.false_eq_true]
          refine ⟨⟨?_, fun hcond => absurd hcond hrun⟩, ?_⟩
          · intro heq
            simp at heq
          · intro files heq
            simp at heq
      · simp only [hrs, if_false, reduceIte, Bool.false_eq_true]
        refine ⟨⟨?_, fun hcond => absurd hcond hrun⟩, ?_⟩
        · intro heq
          simp at heq
        · intro files heq
          simp at heq

/-- Witness for C6 at a Completed agent with force unset. -/
theorem merge_error_behavior_witness :
    (orchC.merge "1" MergeStrategy.merge false wMergeA).1 =
        .error (.agentStillRunning "1") ↔
      (agentC.status = AgentStatus.running ∧ false = false) :=
  (merge_error_behavior orchC "1" agentC MergeStrategy.merge false wMergeA rfl).1

/-- Claim C7: whenever launch returns an error, the persisted registry is
untouched — the registry entry is appended and saved only as the final
step, so no agent record has been added to disk. -/
theorem launch_error_no_orphan (o : Orch) (req : LaunchRequest)
    (w : LaunchOracle) (e : Error) (h : (o.launch req w).1 = .error e) :
    (o.launch req w).2.disk = o.disk := by
  unfold Orch.launch at h ⊢
  cases hrb : resolveBranch req w (natToString o.state.next_id) with
  | error e2 => simp [hrb]
  | ok v =>
    obtain ⟨branch, base, path⟩ := v
    cases hes : w.ensure_session with
    | error e2 => simp [hrb, hes]
    | ok u1 =>
      cases hcw : w.create_window with
      | error e2 => simp [hrb, hes, hcw]
      | ok u2 =>
        cases hwp : w.write_prompt with
        | error e2 => simp [hrb, hes, hcw, hwp]
        | ok u3 =>
          cases hsk : w.send_keys with
          | error e2 => simp [hrb, hes, hcw, hwp, hsk]
          | ok u4 =>
            by_cases hsv : w.saveOk
            · simp only [hrb, hes, hcw, hwp, hsk, hsv, if_true, reduceIte] at h
              simp at h
            · simp [hrb, hes, hcw, hwp, hsk, hsv]

/-- Witness for C7: a launch whose worktree creation fails leaves the
persisted registry unchanged. -/
theorem launch_error_no_orphan_witness :
    ((Orch.init "s").launch reqA wLaunchFail).2.disk = (Orch.init "s").disk :=
  launch_error_no_orphan (Orch.init "s") reqA wLaunchFail Error.io rfl

/-- Claim C4: over any sequence of N launch calls from a registry
satisfying the id invariant, next_id grows by exactly N, the N allocated
ids are the decimal renderings of consecutive counters (hence pairwise
distinct), and every agent id remains the decimal rendering of an
integer below next_id. -/
theorem launch_id_allocation (o : Orch)
    (calls : List (LaunchRequest × LaunchOracle)) (hinv : idInv o.state) :
    (runLaunches o calls).1.state.next_id = o.state.next_id + calls.length ∧
    (runLaunches o calls).2 =
      (List.range calls.length).map (fun i => natToString (o.state.next_id + i)) ∧
    (runLaunches o calls).2.Nodup ∧
    idInv (runLaunches o calls).1.state := by
  refine ⟨runLaunches_next_id o calls, runLaunches_ids o calls, ?_,
    idInv_runLaunches o calls hinv⟩
  rw [runLaunches_ids o calls]
  apply List.Nodup.map
  · intro i j hij
    have := natToString_injective hij
    omega
  · exact List.nodup_range _

/-- Witness for C4: two launches from a fresh registry advance next_id
from 1 to 3. -/
theorem launch_id_allocation_witness :
    (runLaunches (Orch.init "s") callsW).1.state.next_id =
      (Orch.init "s").state.next_id + callsW.length :=
  (launch_id_allocation (Orch.init "s") callsW
    (fun a ha => absurd ha (List.not_mem_nil a))).1

/-- Claim C3 counterexample: launching an agent and force-merging it
while still Running is a reachable sequence that produces a Merged agent
with completed_at unset — Orchestrator::merge never stamps completed_at. -/
theorem completed_at_inv_cex :
    Reachable orchForcedMerge ∧
    orchForcedMerge.state.get_agent "1" =
      some { agentA with status := AgentStatus.merged } ∧
    ¬ completedAtInv orchForcedMerge.state := by
  refine ⟨?_, rfl, ?_⟩
  · exact Reachable.merge _ "1" MergeStrategy.merge true wMergeA
      (Reachable.launch _ reqA wLaunchA (Reachable.init "s"))
  · intro hinv
    have hiff := hinv { agentA with status := AgentStatus.merged } (by decide)
    exact AgentStatus.noConfusion (hiff.mp rfl)

/-- Claim C3 (amended): in every registry state reachable by sequences
of orchestrator operations in which merge is never forced on an agent
recorded as Running, completed_at is unset exactly on Running agents —
so every Completed, Failed, or Merged agent has completed_at set. (A
forced merge of a Running agent breaks this: merge does not stamp
completed_at when transitioning to Merged.) -/
theorem reachable_safe_completed_at_inv (o : Orch) (h : ReachableSafe o) :
    completedAtInv o.state := by
  induction h with
  | init session =>
    intro a ha
    simp [Orch.init] at ha
  | launch o req w hr ih => exact completedAtInv_launch o req w ih
  | check_status o id w hr ih => exact completedAtInv_check o id w ih
  | merge o id strategy force w hr hsafe ih =>
    exact completedAtInv_merge o id strategy force w hsafe ih
  | remove o id force w hr ih => exact completedAtInv_remove o id force w ih
  | prune o filter saveOk hr ih => exact completedAtInv_prune o filter saveOk ih

/-- Witness for the amended C3 statement after one launch. -/
theorem reachable_safe_completed_at_inv_witness :
    completedAtInv ((Orch.init "s").launch reqA wLaunchA).2.state :=
  reachable_safe_completed_at_inv _
    (ReachableSafe.launch _ reqA wLaunchA (ReachableSafe.init "s"))

end WorktreeAgent
